import Mathlib

/-!
Verification of the ctx-zip tool-results compactor against its
natural-language specification.

The definitions below are a shallow embedding of the TypeScript sources:

* src/src/tool-results-compactor/strategies/writeToolResultsToFile.ts
  (detectWindowStart, detectWindowRange, messageHasTextContent,
  writeToolResultsToFileStrategy, formatStoragePathForDisplay)
* src/src/tool-results-compactor/compact.ts (compact dispatcher)
* src/unnamed/part_016 (FileAdapter.resolveKey / toString)
* src/unnamed/part_018 (createReadFileTool execute)
* src/src/tools/grepAndSearchFile.ts (createGrepAndSearchFileTool execute)

JavaScript runtime values that the code dispatches on by shape
(typeof checks, truthiness, optional fields) are modelled by the
inductive type JVal.  Machine details that no claim depends on are not
modelled: the JSON body written to storage (it contains a wall-clock
timestamp and a random UUID) is abstracted to the written key, and
numbers are Int (all counts reaching Math.floor are finite integers in
every claim).
-/

namespace CtxZip

/-- String constant: the literal "text". -/
def tyText : String := "text"

/-- String constant: the literal "json". -/
def tyJson : String := "json"

/-- String constant: the literal "tool-result". -/
def tyToolResult : String := "tool-result"

/-- String constant: the literal "tool". -/
def roleTool : String := "tool"

/-- String constant: the literal "assistant". -/
def roleAssistant : String := "assistant"

/-- String constant: the literal "user". -/
def roleUser : String := "user"

/-- String constant: the field name "value". -/
def fValue : String := "value"

/-- String constant: the field name "type". -/
def fType : String := "type"

/-- String constant: the field name "text". -/
def fText : String := "text"

/-- String constant: the field name "fileName". -/
def fFileName : String := "fileName"

/-- String constant: the field name "key". -/
def fKey : String := "key"

/-- String constant: the field name "storage". -/
def fStorage : String := "storage"

/-- String constant: a single slash. -/
def slashStr : String := "/"

/-- String constant: a parent-directory segment. -/
def dotDotStr : String := ".."

/-- Model of a JavaScript runtime value, restricted to the shapes the
compactor inspects: strings, numbers, booleans, null, undefined and
plain objects (a list of named fields). -/
inductive JVal where
  | vabsent : JVal
  | vnull : JVal
  | vbool : Bool → JVal
  | vnum : Int → JVal
  | vstr : String → JVal
  | vobj : List (String × JVal) → JVal

/-- JavaScript truthiness of a value ("", 0, false, null, undefined are
falsy; every object is truthy). -/
def truthy : JVal → Bool
  | .vabsent => false
  | .vnull => false
  | .vbool b => b
  | .vnum n => n != 0
  | .vstr s => s != ""
  | .vobj _ => true

/-- Whether typeof the value is "object" in JavaScript (true for null
and for plain objects). -/
def typeofObject : JVal → Bool
  | .vobj _ => true
  | .vnull => true
  | _ => false

/-- Whether the value is a string (typeof x === "string"). -/
def isStringVal : JVal → Bool
  | .vstr _ => true
  | _ => false

/-- The string carried by a string value, defaulting to "". -/
def asStr : JVal → String
  | .vstr s => s
  | _ => ""

/-- Field lookup in an object field list; the first binding wins, a
missing field is undefined. -/
def lookupField : List (String × JVal) → String → JVal
  | [], _ => .vabsent
  | (k, v) :: rest, key => if k = key then v else lookupField rest key

/-- Property access o.f in JavaScript: a field of an object, undefined
for primitives (the code only dereferences guarded values). -/
def getField : JVal → String → JVal
  | .vobj fs, k => lookupField fs k
  | _, _ => .vabsent

/-- Whether the value is undefined. -/
def isAbsent : JVal → Bool
  | .vabsent => true
  | _ => false

/-- Strict equality of a value with a string literal (v === "s"). -/
def eqStrVal (v : JVal) (s : String) : Bool :=
  match v with
  | .vstr t => t == s
  | _ => false

/-- JavaScript String.prototype.startsWith. -/
def jsStartsWith (s pre : String) : Bool :=
  pre.data.isPrefixOf s.data

/-- One content part of a message, with the fields the compactor reads:
part.type, part.toolName, part.toolCallId, part.text and part.output.
Fields that may be absent are JVal (undefined when absent). -/
structure ContentPart where
  type : String
  toolName : JVal
  toolCallId : JVal
  text : JVal
  output : JVal

/-- Message content: either a plain string or an array of parts. -/
inductive MsgContent where
  | mstr : String → MsgContent
  | mparts : List ContentPart → MsgContent

/-- A conversation message (role plus content), mirroring ModelMessage
as the compactor consumes it. -/
structure Message where
  role : String
  content : MsgContent

/-- Source messageHasTextContent: true when content is a string, or
when some part has type "text" and a string text field.  Note that the
source checks only typeof part.text === "string" and never that the
string is non-empty. -/
def messageHasTextContent (m : Message) : Bool :=
  match m.content with
  | .mstr _ => true
  | .mparts ps => ps.any (fun p => p.type == tyText && isStringVal p.text)

/-- Compaction boundary.  The TypeScript union has "all", keep-first
and keep-last; sinceLastTurn models any further value (such as the
documented "since-last-assistant-or-user-text"), which detectWindowStart
routes to its backward scan and detectWindowRange routes to its final
return.  Counts are Int: every count reaching Math.floor in a claim is a
finite integer. -/
inductive Boundary where
  | all : Boundary
  | keepFirst : Int → Boundary
  | keepLast : Int → Boundary
  | sinceLastTurn : Boundary

/-- Whether the message at index i is a turn boundary for the backward
scan: role assistant or user, with text content. -/
def isTurnBoundaryAt (msgs : List Message) (i : Nat) : Bool :=
  match msgs[i]? with
  | some m => (m.role == roleAssistant || m.role == roleUser) && messageHasTextContent m
  | none => false

/-- The backward scan of detectWindowStart: starting at index i and
walking down to 0, return one past the first turn-boundary index, or 0
when none is found. -/
def scanBoundary (msgs : List Message) : Nat → Nat
  | 0 => if isTurnBoundaryAt msgs 0 then 1 else 0
  | i + 1 => if isTurnBoundaryAt msgs (i + 1) then i + 2 else scanBoundary msgs i

/-- Source detectWindowStart: keep-first clamps the count into
[0, len-1]; keep-last and "all" start at 0; any other boundary scans
backward from len-2 for the last user/assistant message with text
content. -/
def detectWindowStart (msgs : List Message) (b : Boundary) : Int :=
  match b with
  | .keepFirst count =>
      let n : Int := max 0 count
      let len : Int := msgs.length
      let upperBound : Int := max 0 (len - 1)
      min n upperBound
  | .keepLast _ => 0
  | .all => 0
  | .sinceLastTurn =>
      if msgs.length ≤ 1 then 0 else (scanBoundary msgs (msgs.length - 2) : Int)

/-- Source detectWindowRange, written over the message-list length only
(the source range computation never inspects message contents). -/
def detectWindowRangeLen (len : Nat) (b : Boundary) : Int × Int :=
  if len ≤ 1 then (0, 0)
  else
    match b with
    | .keepFirst count =>
        let n : Int := max 0 count
        let startIndex : Int := min n ((len : Int) - 1)
        (startIndex, max startIndex ((len : Int) - 1))
    | .keepLast count =>
        let n : Int := max 0 count
        (0, max 0 (min ((len : Int) - 1) ((len : Int) - n)))
    | _ => (0, max 0 ((len : Int) - 1))

/-- Source detectWindowRange on a message list. -/
def detectWindowRange (msgs : List Message) (b : Boundary) : Int × Int :=
  detectWindowRangeLen msgs.length b

/-- The clamp used by the specification text: clamp(x, lo, hi). -/
def clampI (x lo hi : Int) : Int := min (max x lo) hi

/-- Abstract storage adapter as the strategy consumes it: resolveKey
plus the stable URI returned by toString(). -/
structure StorageAdapter where
  resolveKey : String → String
  uri : String

/-- Options of writeToolResultsToFileStrategy.  fileReaderTools models
the optional array; the empty list stands for both undefined and [] in
the source (the source treats the two alike).  The serializer and
sessionId only shape the persisted JSON body, which is not modelled. -/
structure StratOptions where
  boundary : Boundary
  adapter : StorageAdapter
  fileReaderTools : List String

/-- String constant: "Written to file:" — the idempotence-check prefix. -/
def writtenPrefix : String := "Written to file:"

/-- String constant: "Read from file:" — the idempotence-check prefix. -/
def readPrefix : String := "Read from file:"

/-- String constant: "Written to file: " (with the trailing space of the
source template literal). -/
def writtenLead : String := "Written to file: "

/-- String constant: "Read from file: " (with the trailing space of the
source template literal). -/
def readLead : String := "Read from file: "

/-- String constant: ". Key: " used between display path and key. -/
def keyMid : String := ". Key: "

/-- String constant: the tail of the written-to reference. -/
def writtenTail : String := ". Use the read/search tools to inspect its contents."

/-- String constant: "file://". -/
def fileScheme : String := "file://"

/-- String constant: "sandbox://". -/
def sandboxScheme : String := "sandbox://"

/-- String constant: placeholder shown when no file name is found. -/
def unknownFileName : String := "<unknown>"

/-- String constant: fallback tool name. -/
def unknownToolName : String := "unknown"

/-- String constant: ".json". -/
def jsonExt : String := ".json"

/-- String constant: default reader tool name. -/
def readFileName : String := "readFile"

/-- Drop one trailing slash character, as the source regex
replace(/\/$/, "") does. -/
def dropTrailingSlash (s : String) : String :=
  match s.data.getLast? with
  | some c => if c = '/' then String.mk s.data.dropLast else s
  | none => s

/-- Source formatStoragePathForDisplay: file:// and sandbox:// URIs are
shown as uri/key (with one trailing slash removed from the uri), an
empty uri as the bare key, and anything else as uri:key. -/
def formatStoragePathForDisplay (storageUri key : String) : String :=
  if storageUri = "" then key
  else if jsStartsWith storageUri fileScheme || jsStartsWith storageUri sandboxScheme then
    dropTrailingSlash storageUri ++ "/" ++ key
  else storageUri ++ ":" ++ key

/-- The reader-tool set of the strategy: the configured names when the
array is non-empty, else the default containing only readFile. -/
def readerNames (opts : StratOptions) : List String :=
  if opts.fileReaderTools ≠ [] then opts.fileReaderTools else [readFileName]

/-- The source test part.toolName && fileReaderSet.has(part.toolName):
a truthy tool name that is a member of the reader set. -/
def readerTest (opts : StratOptions) (p : ContentPart) : Bool :=
  truthy p.toolName &&
    (match p.toolName with
     | .vstr s => (readerNames opts).contains s
     | _ => false)

/-- The reader-branch rewrite of a part: dig fileName, key and storage
out of the current output (through one .value and one .text indirection
as the source does) and install a read-from reference; nothing is
written and nothing is registered. -/
def readerRewrite (p : ContentPart) : ContentPart :=
  let output := p.output
  let outputData :=
    if truthy output && typeofObject output && !isAbsent (getField output fValue) then
      getField output fValue
    else output
  let outputData :=
    if truthy outputData && typeofObject outputData && !isAbsent (getField outputData fText) then
      getField outputData fText
    else outputData
  let fileName : Option String :=
    if truthy outputData && typeofObject outputData then
      match getField outputData fFileName with
      | .vstr s => some s
      | _ => none
    else none
  let key : Option String :=
    if truthy outputData && typeofObject outputData then
      match getField outputData fKey with
      | .vstr s => some s
      | _ => none
    else none
  let storage : Option String :=
    if truthy outputData && typeofObject outputData then
      match getField outputData fStorage with
      | .vstr s => some s
      | _ => none
    else none
  let display :=
    match storage, key with
    | some st, some k =>
        if st ≠ "" && k ≠ "" then
          readLead ++ formatStoragePathForDisplay st k ++ keyMid ++ k
        else readLead ++ fileName.getD unknownFileName
    | _, _ => readLead ++ fileName.getD unknownFileName
  { p with output := .vobj [("type", .vstr tyText), ("value", .vstr display)] }

/-- The tool name used for the persisted file: part.toolName || "unknown". -/
def partToolName (p : ContentPart) : String :=
  match p.toolName with
  | .vstr s => if s = "" then unknownToolName else s
  | _ => unknownToolName

/-- The written-to reference object installed in place of a persisted
output. -/
def writtenRef (opts : StratOptions) (key : String) : JVal :=
  .vobj [("type", .vstr tyText),
    ("value", .vstr (writtenLead ++ formatStoragePathForDisplay opts.adapter.uri key
      ++ keyMid ++ key ++ writtenTail))]

/-- The write branch of the strategy: resolve the key from
toolName.json, record the write, and install the written-to reference.
The JSON body (metadata plus output value) is abstracted to the key. -/
def writePart (opts : StratOptions) (p : ContentPart) : ContentPart × List String :=
  let key := opts.adapter.resolveKey (partToolName p ++ jsonExt)
  ({ p with output := writtenRef opts key }, [key])

/-- The output unwrapping of the write path: a json output yields its
value, a text output with a string text field yields that string, and
anything else is taken as-is. -/
def extractOutputValue (output : JVal) : JVal :=
  if truthy output && eqStrVal (getField output fType) tyJson
      && !isAbsent (getField output fValue) then
    getField output fValue
  else if truthy output && eqStrVal (getField output fType) tyText
      && isStringVal (getField output fText) then
    getField output fText
  else output

/-- Whether a string carries one of the two reference prefixes. -/
def refPrefixed (s : String) : Bool :=
  jsStartsWith s writtenPrefix || jsStartsWith s readPrefix

/-- The already-compacted test of the write path: a string output value
with a reference prefix, or a text-typed output whose string value
field has one; exactly the two skip conditions of the source (any other
shape falls through to the write). -/
def alreadyRef (output outputValue : JVal) : Bool :=
  if isStringVal outputValue then refPrefixed (asStr outputValue)
  else if truthy output && eqStrVal (getField output fType) tyText
      && isStringVal (getField output fValue) then
    refPrefixed (asStr (getField output fValue))
  else false

/-- Processing of one content part by the strategy loop body: skip
non-tool-results and falsy outputs, divert reader tools, unwrap the
output, skip falsy unwrapped values and already-referenced outputs,
else persist and replace. -/
def processPart (opts : StratOptions) (p : ContentPart) : ContentPart × List String :=
  if p.type ≠ tyToolResult ∨ truthy p.output = false then (p, [])
  else if readerTest opts p then (readerRewrite p, [])
  else if truthy (extractOutputValue p.output) = false then (p, [])
  else if alreadyRef p.output (extractOutputValue p.output) then (p, [])
  else writePart opts p

/-- Sequential processing of the parts of one tool message,
concatenating the write log in order. -/
def processParts (opts : StratOptions) : List ContentPart → List ContentPart × List String
  | [] => ([], [])
  | p :: rest =>
      let r := processPart opts p
      let rs := processParts opts rest
      (r.1 :: rs.1, r.2 ++ rs.2)

/-- Source isToolMessage: role "tool" with an array content. -/
def isToolMessage (m : Message) : Bool :=
  m.role == roleTool &&
    (match m.content with
     | .mparts _ => true
     | .mstr _ => false)

/-- Processing of one message inside the window: tool messages have
each part processed, others pass through. -/
def processToolMsg (opts : StratOptions) (m : Message) : Message × List String :=
  match m.content with
  | .mparts ps =>
      let r := processParts opts ps
      ({ m with content := .mparts r.1 }, r.2)
  | .mstr _ => (m, [])

/-- The loop body applied at index i: only indices in [lo, hi) holding
tool messages are processed. -/
def transMsg (opts : StratOptions) (lo hi : Nat) (i : Nat) (m : Message) :
    Message × List String :=
  if lo ≤ i ∧ i < hi ∧ isToolMessage m then processToolMsg opts m else (m, [])

/-- The strategy loop over the message list, carrying the running index. -/
def processMessages (opts : StratOptions) (lo hi : Nat) :
    List Message → Nat → List Message × List String
  | [], _ => ([], [])
  | m :: rest, i =>
      let r := transMsg opts lo hi i m
      let rs := processMessages opts lo hi rest (i + 1)
      (r.1 :: rs.1, r.2 ++ rs.2)

/-- Source entry guard: the last message exists, has role assistant and
has text content. -/
def endsWithAssistantText (msgs : List Message) : Bool :=
  match msgs.getLast? with
  | some m => m.role == roleAssistant && messageHasTextContent m
  | none => false

/-- Source writeToolResultsToFileStrategy, returning the new message
list together with the ordered list of storage keys written.  The value
semantics of the source mutation part.output = ... is captured here;
the object-identity (aliasing) semantics is modelled separately below. -/
def writeToolResultsToFileStrategy (msgs : List Message) (opts : StratOptions) :
    List Message × List String :=
  if endsWithAssistantText msgs = false then (msgs, [])
  else
    let r := detectWindowRange msgs opts.boundary
    let lo : Nat := r.1.toNat
    let hi : Nat := (min r.2 ((msgs.length : Int) - 1)).toNat
    processMessages opts lo hi msgs 0

/-! ### FileAdapter (part_016 / part_009): resolveKey and toString -/

/-- Scanner for the second replace of the source resolveKey (the global
regex deleting dot-runs before slashes): a maximal run of dots
immediately followed by one slash is deleted together with that slash; a
dot run not followed by a slash is copied, as is every other character.
The first argument counts dots seen but not yet emitted. -/
def sdsGo : Nat → List Char → List Char
  | pending, [] => List.replicate pending '.'
  | pending, c :: rest =>
      if c = '.' then sdsGo (pending + 1) rest
      else if c = '/' then
        (if pending = 0 then '/' :: sdsGo 0 rest else sdsGo 0 rest)
      else List.replicate pending '.' ++ c :: sdsGo 0 rest

/-- Deletion of every dot-run-before-slash, the second replace of the
source resolveKey. -/
def stripDotSlash (l : List Char) : List Char := sdsGo 0 l

/-- The source sanitization name.replace(/\\/g, "/").replace(/\.+\//g, ""):
backslashes become slashes, then dot-runs before slashes are removed. -/
def sanitizeName (name : String) : String :=
  String.mk (stripDotSlash (name.data.map (fun c => if c = '\\' then '/' else c)))

/-- Array.prototype.join("/") on a list of path components. -/
def joinSlash : List String → String
  | [] => ""
  | [s] => s
  | s :: rest => s ++ "/" ++ joinSlash rest

/-- Configuration of the local FileAdapter: base directory, optional
prefix (empty string means unset, as the source tests truthiness) and
optional session id. -/
structure FileAdapterOptions where
  baseDir : String
  pfx : String
  sessionId : Option String

/-- Source FileAdapter.resolveKey: sanitize the name and join
[prefix-without-trailing-slash]/[sessionId/tool-results]/name.
LocalFileAdapter.resolveKey in part_009 has the identical body. -/
def FileAdapterResolveKey (a : FileAdapterOptions) (name : String) : String :=
  let safe := sanitizeName name
  let parts : List String :=
    (if a.pfx ≠ "" then [dropTrailingSlash a.pfx] else []) ++
    (match a.sessionId with
     | some sid => [sid, "tool-results"]
     | none => []) ++ [safe]
  joinSlash parts

/-- Source FileAdapter.toString (part_016): file:// plus
baseDir[/prefix][/sessionId/tool-results]. -/
def FileAdapterToString (a : FileAdapterOptions) : String :=
  fileScheme ++ joinSlash ([a.baseDir] ++
    (if a.pfx ≠ "" then [a.pfx] else []) ++
    (match a.sessionId with
     | some sid => [sid, "tool-results"]
     | none => []))

/-- The StorageAdapter view of a FileAdapter. -/
def fileStorageAdapter (a : FileAdapterOptions) : StorageAdapter :=
  { resolveKey := FileAdapterResolveKey a, uri := FileAdapterToString a }

/-- Whether a character list starts with a slash. -/
def headIsSlash : List Char → Bool
  | [] => false
  | c :: _ => c == '/'

/-- Finding a dot immediately followed by a slash somewhere in a
character list (the shape every "../" or "./" occurrence must contain). -/
def hasDotSlashPair : List Char → Bool
  | [] => false
  | c :: rest => (c == '.' && headIsSlash rest) || hasDotSlashPair rest

/-- Splitting a character list into its slash-separated segments. -/
def splitSlash : List Char → List (List Char)
  | [] => [[]]
  | c :: rest =>
      match splitSlash rest with
      | [] => [[c]]
      | seg :: segs => if c = '/' then [] :: seg :: segs else (c :: seg) :: segs

/-- Whether a key contains ".." as a full path segment. -/
def hasDotDotSegment (key : String) : Bool :=
  (splitSlash key.data).contains ['.', '.']

/-! ### Known-key registry and reader tools -/

/-- Modelled from the spec: the Known-Key Registry module
(lib/knownKeys, imported by the reader tools as isKnownKey) is not under
src/; per section 4.4 it is an in-process set of (storage URI, key)
pairs. -/
def isKnownKey (reg : List (String × String)) (uri key : String) : Bool :=
  reg.contains (uri, key)

/-- Modelled from the spec: register(uri, key) inserts a pair into the
Known-Key Registry. -/
def registerKnownKey (reg : List (String × String)) (uri key : String) :
    List (String × String) :=
  (uri, key) :: reg

/-- String constant: the unknown-key refusal returned by both reader
tools (part_018 and grepAndSearchFile.ts). -/
def unknownKeyMsg : String :=
  "Tool cannot be used: unknown key. Use a key previously surfaced via \x27Written to ... Key: <key>\x27 or \x27Read from storage ... Key: <key>\x27. If none exists, re-run the producing tool to persist and get a key."

/-- String constant: the missing-readText message of readFile. -/
def noReadTextMsg : String :=
  "No readText method found in storage adapter. Are you sure the storage is correct? If yes, make the original tool call again with the same arguments instead of relying on readFile or grepAndSearchFile."

/-- Storage adapter as the reader tools consume it: the URI, whether
readText exists, and total functions for the read and grep primitives
(exceptions are not modelled; the unknown-key path never reaches them). -/
structure ReaderAdapter where
  uri : String
  hasReadText : Bool
  readTextFn : String → String
  grepFn : String → String → List String

/-- Result shape shared by the reader tools: the echoed key, a content
string when one is produced, the match list of the search tool (matchLines), and the
storage URI when reported. -/
structure ToolCallResult where
  key : String
  content : Option String
  matchLines : Option (List String)
  storage : Option String

/-- Source createReadFileTool execute (part_018): refuse unknown keys
before any storage access, then require readText, then read.  The
second component lists the keys whose stored content was accessed. -/
def readFileExecute (reg : List (String × String)) (a : ReaderAdapter)
    (key : String) : ToolCallResult × List String :=
  if isKnownKey reg a.uri key = false then
    ({ key := key, content := some unknownKeyMsg, matchLines := none,
       storage := some a.uri }, [])
  else if a.hasReadText = false then
    ({ key := key, content := some noReadTextMsg, matchLines := none,
       storage := some a.uri }, [])
  else
    ({ key := key, content := some (a.readTextFn key), matchLines := none,
       storage := some a.uri }, [key])

/-- String constant: the invalid-regex reply prefix of the search tool. -/
def invalidRegexLead : String := "Invalid regex: "

/-- Source createGrepAndSearchFileTool execute: an invalid regex is
reported locally (regexOk models whether new RegExp(pattern, flags)
succeeded); then unknown keys are refused before any storage access;
else grepObject scans the stored object.  The second component lists
the keys whose stored content was accessed. -/
def grepExecute (reg : List (String × String)) (a : ReaderAdapter)
    (key pattern : String) (regexOk : Bool) : ToolCallResult × List String :=
  if regexOk = false then
    ({ key := key, content := some (invalidRegexLead ++ pattern), matchLines := none,
       storage := none }, [])
  else if isKnownKey reg a.uri key = false then
    ({ key := key, content := some unknownKeyMsg, matchLines := none,
       storage := some a.uri }, [])
  else
    ({ key := key, content := none, matchLines := some (a.grepFn key pattern),
       storage := some a.uri }, [key])

/-! ### compact dispatcher (compact.ts) -/

/-- String constant: the default strategy name. -/
def writeStrategyName : String := "write-tool-results-to-file"

/-- String constant: the drop strategy name. -/
def dropStrategyName : String := "drop-tool-results"

/-- String constant: the unknown-strategy error prefix. -/
def unknownStrategyLead : String := "Unknown compaction strategy: "

/-- String constant: the note the drop strategy installs. -/
def droppedMsg : String := "Results dropped to preserve context"

/-- Modelled from the spec: dropToolResultsStrategy
(strategies/dropToolResults) is not under src/ (only its caller and the
README describe it); per the README it replaces each tool output in the
window with a dropped-results note and uses no storage.  Its exact
behaviour decides no claim; the dispatcher only needs a total value. -/
def dropToolResultsStrategy (msgs : List Message) (_b : Boundary) :
    List Message × List String :=
  (msgs.map (fun m =>
    if isToolMessage m then
      { m with content :=
          match m.content with
          | .mparts ps => .mparts (ps.map (fun p =>
              if p.type == tyToolResult then
                { p with output := .vobj [("type", .vstr tyText),
                    ("value", .vstr droppedMsg)] }
              else p))
          | c => c }
    else m), [])

/-- Options of the compact dispatcher.  The storage resolution from a
URI (createFileAdapter) is outside the claims; the adapter is taken
directly.  sandboxReaderNames are the four names compact always
prepends to fileReaderTools. -/
structure CompactOptions where
  strategy : Option String
  boundary : Option Boundary
  adapter : StorageAdapter
  fileReaderTools : List String

/-- String constants: the reader-tool names compact always configures. -/
def sandboxReaderNames : List String :=
  ["sandbox_ls", "sandbox_cat", "sandbox_grep", "sandbox_find"]

/-- Source compact: default the strategy and boundary, dispatch to the
write or drop strategy, and throw on any other strategy name (modelled
as Except.error carrying the thrown message; the error is raised before
any strategy runs, so the write log of an error is empty by the pair
construction). -/
def compact (msgs : List Message) (o : CompactOptions) :
    Except String (List Message) × List String :=
  let strat := o.strategy.getD writeStrategyName
  let b := o.boundary.getD Boundary.all
  if strat = writeStrategyName then
    let r := writeToolResultsToFileStrategy msgs
      { boundary := b, adapter := o.adapter,
        fileReaderTools := sandboxReaderNames ++ o.fileReaderTools }
    (.ok r.1, r.2)
  else if strat = dropStrategyName then
    let r := dropToolResultsStrategy msgs b
    (.ok r.1, r.2)
  else (.error (unknownStrategyLead ++ strat), [])

/-! ### Object-identity model of the strategy

The source copies only the outer array (const msgs = [...messages]) and
then assigns part.output = ... on the very part objects the caller owns;
it never builds a new message or part object.  To reason about aliasing,
parts live in a store indexed by object identity and messages reference
parts by index; the strategy updates the store in place and returns the
same references. -/

/-- Message content in the identity model: a plain string or references
into the part store. -/
inductive HContent where
  | hstr : String → HContent
  | hparts : List Nat → HContent

/-- A message holding references to its parts. -/
structure HMessage where
  role : String
  content : HContent

/-- Default part used for out-of-range dereferences (never reached on
well-formed inputs). -/
def defaultPart : ContentPart :=
  { type := "", toolName := .vabsent, toolCallId := .vabsent,
    text := .vabsent, output := .vabsent }

/-- Dereference one message against the store. -/
def derefMsg (store : List ContentPart) (m : HMessage) : Message :=
  { role := m.role,
    content :=
      match m.content with
      | .hstr s => .mstr s
      | .hparts ids => .mparts (ids.map (fun id => store.getD id defaultPart)) }

/-- Dereference a message list against the store. -/
def derefMsgs (store : List ContentPart) (msgs : List HMessage) : List Message :=
  msgs.map (derefMsg store)

/-- In-place processing of the parts of one tool message: each
referenced part object is overwritten with its processed value. -/
def hProcessIds (opts : StratOptions) : List ContentPart → List Nat → List ContentPart
  | store, [] => store
  | store, id :: rest =>
      hProcessIds opts (store.set id (processPart opts (store.getD id defaultPart)).1) rest

/-- Whether a referenced message is a tool message (role "tool" with an
array content), as the source tests it on the aliased objects. -/
def hIsToolMessage (m : HMessage) : Bool :=
  m.role == roleTool &&
    (match m.content with
     | .hparts _ => true
     | .hstr _ => false)

/-- The strategy loop in the identity model: walk the window and update
the store at every part of every tool message inside it. -/
def hTrans (opts : StratOptions) (lo hi : Nat) :
    List ContentPart → Nat → List HMessage → List ContentPart
  | store, _, [] => store
  | store, i, m :: rest =>
      let store2 :=
        if lo ≤ i ∧ i < hi ∧ hIsToolMessage m then
          match m.content with
          | .hparts ids => hProcessIds opts store ids
          | .hstr _ => store
        else store
      hTrans opts lo hi store2 (i + 1) rest

/-- Source writeToolResultsToFileStrategy in the identity model: the
returned message list is the shallow copy [...messages], holding the
same part references as the input (the source never reassigns msgs[i]
nor clones a part); all rewriting happens in the store. -/
def writeStrategyParts (store : List ContentPart) (msgs : List HMessage)
    (opts : StratOptions) : List ContentPart × List HMessage :=
  if endsWithAssistantText (derefMsgs store msgs) = false then (store, msgs)
  else
    let r := detectWindowRangeLen msgs.length opts.boundary
    let lo : Nat := r.1.toNat
    let hi : Nat := (min r.2 ((msgs.length : Int) - 1)).toNat
    (hTrans opts lo hi store 0 msgs, msgs)

/-- The part references of one message (empty for string content). -/
def msgIds (m : HMessage) : List Nat :=
  match m.content with
  | .hstr _ => []
  | .hparts ids => ids

/-- All part references of a message list, in traversal order. -/
def allIds (msgs : List HMessage) : List Nat :=
  (msgs.map msgIds).flatten

/-- The references the strategy loop touches: parts of tool messages
whose index lies in the window. -/
def windowIds (lo hi : Nat) : Nat → List HMessage → List Nat
  | _, [] => []
  | i, m :: rest =>
      (if lo ≤ i ∧ i < hi ∧ hIsToolMessage m then msgIds m else []) ++
        windowIds lo hi (i + 1) rest

/-! ### Concrete fixtures used by witnesses and counterexamples -/

/-- Fixture: a user message with text content. -/
def msgUserHi : Message := { role := roleUser, content := .mstr ("hi") }

/-- Fixture: a user message whose whole content is the empty string. -/
def msgUserEmpty : Message := { role := roleUser, content := .mstr ("") }

/-- Fixture: the closing assistant message with text content. -/
def msgAssistantDone : Message := { role := roleAssistant, content := .mstr ("done") }

/-- Fixture: a large json tool result of a tool named fetchEmails. -/
def partFetch : ContentPart :=
  { type := tyToolResult, toolName := .vstr ("fetchEmails"),
    toolCallId := .vstr ("call-1"), text := .vabsent,
    output := .vobj [("type", .vstr tyJson), ("value", .vobj [("a", .vnum 1)])] }

/-- Fixture: a readFile tool result carrying storage and key fields, as
the reader tool returns them. -/
def partReader : ContentPart :=
  { type := tyToolResult, toolName := .vstr ("readFile"),
    toolCallId := .vstr ("call-2"), text := .vabsent,
    output := .vobj [("key", .vstr ("k.json")),
                     ("storage", .vstr ("file:///base")),
                     ("content", .vstr ("stored text"))] }

/-- Fixture: the tool message holding the fetchEmails result. -/
def msgToolFetch : Message := { role := roleTool, content := .mparts [partFetch] }

/-- Fixture: the tool message holding the readFile result. -/
def msgToolReader : Message := { role := roleTool, content := .mparts [partReader] }

/-- Fixture: a three-message conversation ending in assistant text. -/
def exThree : List Message := [msgUserHi, msgToolFetch, msgAssistantDone]

/-- Fixture: conversation whose first message is empty user text. -/
def exEmptyText : List Message := [msgUserEmpty, msgAssistantDone]

/-- Fixture: a compaction input with one persistable tool result. -/
def exWrite : List Message := [msgToolFetch, msgAssistantDone]

/-- Fixture: a compaction input with one reader-tool result. -/
def exReader : List Message := [msgToolReader, msgAssistantDone]

/-- Fixture: an input rejected by the entry guard (no trailing
assistant text). -/
def exGuardFail : List Message := [msgToolFetch, msgUserHi]

/-- Fixture: a trivial storage adapter whose keys are the file names. -/
def adpId : StorageAdapter :=
  { resolveKey := fun n => n, uri := "file:///base" }

/-- Fixture: strategy options compacting everything, no custom reader
tools (so the default reader set, containing readFile, applies). -/
def optsAll : StratOptions :=
  { boundary := .all, adapter := adpId, fileReaderTools := [] }

/-- Fixture: strategy options where readFile is an explicitly
configured reader tool. -/
def optsReader : StratOptions :=
  { boundary := .all, adapter := adpId, fileReaderTools := [readFileName] }

/-- Fixture: a file adapter without prefix or session. -/
def fadBare : FileAdapterOptions :=
  { baseDir := "/base", pfx := "", sessionId := none }

/-- Fixture: session id used by the configured file adapter. -/
def sidFix : String := "sess1"

/-- Fixture: prefix used by the configured file adapter. -/
def pfxFix : String := "subdir"

/-- Fixture: a file adapter with prefix and session configured. -/
def fadFull : FileAdapterOptions :=
  { baseDir := "/base", pfx := pfxFix, sessionId := some sidFix }

/-- Fixture: the file name "report.json". -/
def nameReport : String := "report.json"

/-- Fixture: the key the strategy writes for the fetchEmails result
under the identity adapter. -/
def fetchKey : String := "fetchEmails.json"

/-- Fixture: a reader adapter over the fixture URI. -/
def rdaFix : ReaderAdapter :=
  { uri := "file:///base", hasReadText := true,
    readTextFn := fun _ => "stored text", grepFn := fun _ _ => [] }

/-- Claim-side predicate (from the claim wording of the since-last-turn
scan): the message carries a non-empty text part; for a plain string
content this reads as a non-empty string. -/
def messageHasNonemptyText (m : Message) : Bool :=
  match m.content with
  | .mstr s => s != ""
  | .mparts ps =>
      ps.any (fun p => p.type == tyText && isStringVal p.text && asStr p.text != "")

/-- Claim-side boundary test at one index: role user or assistant with
a non-empty text part. -/
def isTurnBoundarySpecAt (msgs : List Message) (i : Nat) : Bool :=
  match msgs[i]? with
  | some m =>
      (m.role == roleAssistant || m.role == roleUser) && messageHasNonemptyText m
  | none => false

/-- Claim-side backward scan with the non-empty requirement. -/
def scanBoundarySpec (msgs : List Message) : Nat → Nat
  | 0 => if isTurnBoundarySpecAt msgs 0 then 1 else 0
  | i + 1 => if isTurnBoundarySpecAt msgs (i + 1) then i + 2 else scanBoundarySpec msgs i

/-- Claim-side window start for the since-last-turn boundary, as the
claim describes it. -/
def sinceLastTurnStartSpec (msgs : List Message) : Nat :=
  if msgs.length ≤ 1 then 0 else scanBoundarySpec msgs (msgs.length - 2)

/-- The content parts of a message (none for string content). -/
def partsOf (m : Message) : List ContentPart :=
  match m.content with
  | .mstr _ => []
  | .mparts ps => ps

/-- Probe reading the value string inside the first part of the first
message; used to separate unequal compaction results. -/
def probeFirstPartValue (msgs : List Message) : String :=
  match msgs with
  | m :: _ =>
      match m.content with
      | .mparts (p :: _) => asStr (getField p.output fValue)
      | _ => ""
  | _ => ""

/-- Fixture: the part store of the identity model, holding the caller's
fetchEmails part object. -/
def hStore0 : List ContentPart := [partFetch]

/-- Fixture: identity-model messages referencing the caller's part. -/
def hMsgs0 : List HMessage :=
  [{ role := roleTool, content := .hparts [0] },
   { role := roleAssistant, content := .hstr ("done") }]

/-! ### C4: boundary algebra of the window resolver -/

/-- C4: the window resolver satisfies the boundary algebra: length at
most 1 gives the empty window, All gives the full window below the last
index, KeepFirst and KeepLast follow the clamp formulas, KeepFirst 0
agrees with All, and KeepLast of the whole length empties the window. -/
theorem detectWindowRange_boundary_algebra (msgs : List Message) (n : Int) :
    (msgs.length ≤ 1 → ∀ b, detectWindowRange msgs b = (0, 0)) ∧
    (2 ≤ msgs.length →
      detectWindowRange msgs .all = (0, (msgs.length : Int) - 1) ∧
      detectWindowRange msgs (.keepFirst n) =
        (clampI n 0 ((msgs.length : Int) - 1),
         max (clampI n 0 ((msgs.length : Int) - 1)) ((msgs.length : Int) - 1)) ∧
      detectWindowRange msgs (.keepLast n) =
        (0, clampI ((msgs.length : Int) - clampI n 0 (msgs.length : Int)) 0
              ((msgs.length : Int) - 1))) ∧
    detectWindowRange msgs (.keepFirst 0) = detectWindowRange msgs .all ∧
    detectWindowRange msgs (.keepLast (msgs.length : Int)) = (0, 0) := by
  refine ⟨?_, ?_, ?_, ?_⟩
  · intro h b
    cases b <;> simp [detectWindowRange, detectWindowRangeLen, h]
  · intro h
    have hn : ¬ (msgs.length ≤ 1) := by omega
    refine ⟨?_, ?_, ?_⟩ <;>
      simp only [detectWindowRange, detectWindowRangeLen, clampI, if_neg hn,
        Prod.mk.injEq, Int.min_def, Int.max_def] <;>
      (try constructor) <;>
      (first | trivial | ((try split_ifs) <;> omega))
  · by_cases hl : msgs.length ≤ 1
    · simp [detectWindowRange, detectWindowRangeLen, hl]
    · simp only [detectWindowRange, detectWindowRangeLen, if_neg hl, Prod.mk.injEq,
        Int.min_def, Int.max_def]
      (try constructor) <;> (first | trivial | ((try split_ifs) <;> omega))
  · by_cases hl : msgs.length ≤ 1
    · simp [detectWindowRange, detectWindowRangeLen, hl]
    · simp only [detectWindowRange, detectWindowRangeLen, if_neg hl, Prod.mk.injEq,
        Int.min_def, Int.max_def]
      (try constructor) <;> (first | trivial | ((try split_ifs) <;> omega))

/-- Witness for C4: the All window of a three-message conversation. -/
theorem detectWindowRange_boundary_algebra_witness :
    detectWindowRange exThree Boundary.all = (0, (exThree.length : Int) - 1) :=
  ((detectWindowRange_boundary_algebra exThree 5).2.1 (by decide)).1

/-! ### C6: entry guard -/

/-- C6: when the conversation does not end in an assistant message with
text content (in particular when it is empty), the strategy rewrites
nothing, writes nothing and returns the input elements unchanged. -/
theorem entryGuard_returns_input (msgs : List Message) (opts : StratOptions)
    (h : endsWithAssistantText msgs = false) :
    writeToolResultsToFileStrategy msgs opts = (msgs, []) := by
  simp [writeToolResultsToFileStrategy, h]

/-- Witness for C6: a conversation ending in a user message passes
through untouched. -/
theorem entryGuard_returns_input_witness :
    writeToolResultsToFileStrategy exGuardFail optsAll = (exGuardFail, []) :=
  entryGuard_returns_input exGuardFail optsAll (by decide)

/-! ### C10: strategy dispatch of compact -/

/-- C10: any configured strategy string other than the two known names
makes compact throw the unknown-strategy error with an empty write log
and no result list, while an omitted strategy selects
write-tool-results-to-file and never errors. -/
theorem compact_unknown_strategy_rejects (msgs : List Message)
    (o : CompactOptions) (s : String) :
    (o.strategy = some s → s ≠ writeStrategyName → s ≠ dropStrategyName →
      compact msgs o = (.error (unknownStrategyLead ++ s), [])) ∧
    (o.strategy = none → ∃ msgs2 w, compact msgs o = (.ok msgs2, w)) := by
  constructor
  · intro h1 h2 h3
    simp [compact, h1, h2, h3]
  · intro h1
    refine ⟨(writeToolResultsToFileStrategy msgs
        { boundary := o.boundary.getD Boundary.all, adapter := o.adapter,
          fileReaderTools := sandboxReaderNames ++ o.fileReaderTools }).1,
      (writeToolResultsToFileStrategy msgs
        { boundary := o.boundary.getD Boundary.all, adapter := o.adapter,
          fileReaderTools := sandboxReaderNames ++ o.fileReaderTools }).2, ?_⟩
    simp [compact, h1, Option.getD]

/-- Witness for C10: strategy "zip-everything" is rejected with the
thrown message, and omitting the strategy succeeds. -/
theorem compact_unknown_strategy_rejects_witness :
    compact exThree
      { strategy := some ("zip-everything"), boundary := none,
        adapter := adpId, fileReaderTools := [] } =
      (.error (unknownStrategyLead ++ "zip-everything"), []) :=
  (compact_unknown_strategy_rejects exThree
    { strategy := some ("zip-everything"), boundary := none,
      adapter := adpId, fileReaderTools := [] } ("zip-everything")).1
    rfl (by decide) (by decide)

/-! ### C9: key resolution -/

/-- Helper: a run of dots contains no dot-slash pair. -/
theorem hasDotSlashPair_replicate (p : Nat) :
    hasDotSlashPair (List.replicate p '.') = false := by
  induction p with
  | zero => rfl
  | succ n ih =>
      cases n with
      | zero => rfl
      | succ m => simpa [List.replicate, hasDotSlashPair, headIsSlash] using ih

/-- Helper: prepending a dot run to a list headed by a non-slash
character adds no dot-slash pair. -/
theorem hasDotSlashPair_replicate_append (p : Nat) (c : Char) (hc : c ≠ '/')
    (xs : List Char) :
    hasDotSlashPair (List.replicate p '.' ++ c :: xs) = hasDotSlashPair (c :: xs) := by
  induction p with
  | zero => rfl
  | succ n ih =>
      cases n with
      | zero => simp [List.replicate, hasDotSlashPair, headIsSlash, hc]
      | succ m =>
          simpa [List.replicate, hasDotSlashPair, headIsSlash] using ih

/-- Helper: the dot-run-before-slash deletion never leaves a dot
immediately before a slash. -/
theorem sdsGo_no_dotSlashPair (l : List Char) :
    ∀ p, hasDotSlashPair (sdsGo p l) = false := by
  induction l with
  | nil => intro p; simpa [sdsGo] using hasDotSlashPair_replicate p
  | cons c rest ih =>
      intro p
      by_cases hdot : c = '.'
      · simp [sdsGo, hdot, ih]
      · by_cases hsl : c = '/'
        · rcases Nat.eq_zero_or_pos p with hp | hp
          · subst hp
            simp only [sdsGo, hdot, if_false, hsl, if_true, if_pos rfl]
            simp [hasDotSlashPair, ih 0]
          · have hp0 : p ≠ 0 := Nat.pos_iff_ne_zero.mp hp
            simp [sdsGo, hdot, hsl, hp0, ih 0]
        · simp only [sdsGo, hdot, if_false, hsl]
          rw [hasDotSlashPair_replicate_append p c hsl]
          simp [hasDotSlashPair, headIsSlash, hdot, ih 0]

/-- Helper: the sanitized name contains no dot immediately followed by
a slash; in particular no "../" infix survives sanitization. -/
theorem sanitizeName_no_dotSlashPair (name : String) :
    hasDotSlashPair (sanitizeName name).data = false := by
  simpa [sanitizeName, stripDotSlash] using
    sdsGo_no_dotSlashPair (name.data.map (fun c => if c = '\\' then '/' else c)) 0

/-- C9 counterexample: the name ".." survives resolveKey unchanged on a
bare adapter, so the resolved key is the parent-directory segment
itself, which resolved against the base directory escapes it; the claim
that no resolved key contains a ".." path segment is false. -/
theorem resolveKey_dotdot_counterexample :
    FileAdapterResolveKey fadBare dotDotStr = dotDotStr ∧
      hasDotDotSegment (FileAdapterResolveKey fadBare dotDotStr) = true :=
  ⟨rfl, rfl⟩

/-- C9 amended: resolveKey is the pure function that joins the
prefix-and-session segments (exactly when configured) in front of the
sanitized name, and the sanitization deletes every dot-run that
precedes a slash, so the name part contributes no "../" occurrence
(dots not followed by a slash, such as a trailing "..", survive). -/
theorem resolveKey_structure (a : FileAdapterOptions) (name : String) (sid : String) :
    ((a.pfx ≠ "" ∧ a.sessionId = some sid) →
      FileAdapterResolveKey a name =
        dropTrailingSlash a.pfx ++ "/" ++
          (sid ++ "/" ++ ("tool-results" ++ "/" ++ sanitizeName name))) ∧
    ((a.pfx = "" ∧ a.sessionId = none) →
      FileAdapterResolveKey a name = sanitizeName name) ∧
    hasDotSlashPair (sanitizeName name).data = false := by
  refine ⟨?_, ?_, sanitizeName_no_dotSlashPair name⟩
  · rintro ⟨h1, h2⟩
    simp [FileAdapterResolveKey, h1, h2, joinSlash]
  · rintro ⟨h1, h2⟩
    simp [FileAdapterResolveKey, h1, h2, joinSlash]

/-- Witness for C9 amended: the fully configured adapter prefixes the
sanitized report.json name with prefix, session id and tool-results. -/
theorem resolveKey_structure_witness :
    FileAdapterResolveKey fadFull nameReport =
      dropTrailingSlash fadFull.pfx ++ "/" ++
        (sidFix ++ "/" ++ ("tool-results" ++ "/" ++ sanitizeName nameReport)) :=
  (resolveKey_structure fadFull nameReport sidFix).1 ⟨by decide, rfl⟩

/-! ### C5: the since-last-turn scan -/

/-- Helper: what the backward scan returns, characterized: either no
boundary exists at or below the scan start and the result is 0, or the
result is one past the highest boundary index within the scanned
range. -/
theorem scanBoundary_characterization (msgs : List Message) (i : Nat) :
    (scanBoundary msgs i = 0 ∧ ∀ j, j ≤ i → isTurnBoundaryAt msgs j = false) ∨
    (1 ≤ scanBoundary msgs i ∧ scanBoundary msgs i ≤ i + 1 ∧
      isTurnBoundaryAt msgs (scanBoundary msgs i - 1) = true ∧
      ∀ j, scanBoundary msgs i ≤ j → j ≤ i → isTurnBoundaryAt msgs j = false) := by
  induction i with
  | zero =>
      by_cases h : isTurnBoundaryAt msgs 0
      · right
        refine ⟨?_, ?_, ?_, ?_⟩ <;> (simp [scanBoundary, h]; try omega)
      · left
        constructor
        · simp [scanBoundary, h]
        · intro j hj
          have : j = 0 := Nat.le_zero.mp hj
          simpa [this] using eq_false_of_ne_true h
  | succ n ih =>
      by_cases h : isTurnBoundaryAt msgs (n + 1)
      · right
        refine ⟨?_, ?_, ?_, ?_⟩ <;> simp [scanBoundary, h]
        intro j h1 h2; omega
      · have hs : scanBoundary msgs (n + 1) = scanBoundary msgs n := by
          simp [scanBoundary, h]
        rcases ih with ⟨h0, hall⟩ | ⟨h1, h2, h3, h4⟩
        · left
          refine ⟨by rw [hs]; exact h0, ?_⟩
          intro j hj
          rcases Nat.lt_or_ge j (n + 1) with hlt | hge
          · exact hall j (by omega)
          · have : j = n + 1 := by omega
            simpa [this] using eq_false_of_ne_true h
        · right
          rw [hs]
          refine ⟨h1, by omega, h3, ?_⟩
          intro j hj1 hj2
          rcases Nat.lt_or_ge j (n + 1) with hlt | hge
          · exact h4 j hj1 (by omega)
          · have hj : j = n + 1 := by omega
            simpa [hj] using eq_false_of_ne_true h

/-- C5 counterexample: the claim fails twice on the code.  First, the
range resolver the strategy calls performs no backward scan at all for
the since-last-turn boundary: on a conversation whose first message is
user text, the claim prescribes the window (1, 2) but detectWindowRange
returns (0, 2).  Second, the scan that does exist (detectWindowStart)
ignores emptiness: a user message whose whole text is "" sets the
boundary, where the claim says it must not. -/
theorem sinceLastTurn_counterexample :
    (detectWindowRange exThree .sinceLastTurn = (0, 2) ∧
      sinceLastTurnStartSpec exThree = 1) ∧
    (detectWindowStart exEmptyText .sinceLastTurn = 1 ∧
      sinceLastTurnStartSpec exEmptyText = 0) := by
  refine ⟨⟨?_, ?_⟩, ?_, ?_⟩ <;> decide

/-- C5 amended: the backward scan lives in detectWindowStart, which for
a since-last-turn boundary on at least two messages returns one past
the last index below len-1 holding a user or assistant message with a
text part, empty or not (0 when none exists); the range resolver used
by the strategy ignores the scan and returns the full window
(0, len-1) for that boundary. -/
theorem sinceLastTurn_scan_characterization (msgs : List Message)
    (h : 2 ≤ msgs.length) :
    detectWindowRange msgs .sinceLastTurn = (0, (msgs.length : Int) - 1) ∧
    detectWindowStart msgs .sinceLastTurn =
      (scanBoundary msgs (msgs.length - 2) : Int) ∧
    ((scanBoundary msgs (msgs.length - 2) = 0 ∧
       ∀ j, j ≤ msgs.length - 2 → isTurnBoundaryAt msgs j = false) ∨
     (1 ≤ scanBoundary msgs (msgs.length - 2) ∧
       scanBoundary msgs (msgs.length - 2) ≤ msgs.length - 1 ∧
       isTurnBoundaryAt msgs (scanBoundary msgs (msgs.length - 2) - 1) = true ∧
       ∀ j, scanBoundary msgs (msgs.length - 2) ≤ j → j ≤ msgs.length - 2 →
         isTurnBoundaryAt msgs j = false)) := by
  have hn : ¬ (msgs.length ≤ 1) := by omega
  refine ⟨?_, ?_, ?_⟩
  · simp only [detectWindowRange, detectWindowRangeLen, if_neg hn, Prod.mk.injEq,
      Int.max_def]
    (try constructor) <;> (first | trivial | ((try split_ifs) <;> omega))
  · simp [detectWindowStart, hn]
  · rcases scanBoundary_characterization msgs (msgs.length - 2) with h1 | h1
    · exact Or.inl h1
    · exact Or.inr ⟨h1.1, by omega, h1.2.2.1, h1.2.2.2⟩

/-- Witness for C5 amended: on the three-message fixture the scan stops
one past the user message at index 0. -/
theorem sinceLastTurn_scan_characterization_witness :
    detectWindowStart exThree .sinceLastTurn =
      (scanBoundary exThree (exThree.length - 2) : Int) :=
  (sinceLastTurn_scan_characterization exThree (by decide)).2.1

/-! ### C3: reader tools refuse unknown keys -/

/-- C3: for a key unknown to the registry under the adapter URI,
readFile returns the refusal result without touching storage, and the
search tool (once its regex compiled) does the same; with an invalid
regex as well, no storage key is ever read. -/
theorem readerTools_refuse_unknown_keys (reg : List (String × String))
    (a : ReaderAdapter) (key pattern : String)
    (h : isKnownKey reg a.uri key = false) :
    readFileExecute reg a key =
      ({ key := key, content := some unknownKeyMsg, matchLines := none,
         storage := some a.uri }, []) ∧
    grepExecute reg a key pattern true =
      ({ key := key, content := some unknownKeyMsg, matchLines := none,
         storage := some a.uri }, []) ∧
    (∀ regexOk, (grepExecute reg a key pattern regexOk).2 = []) := by
  refine ⟨?_, ?_, ?_⟩
  · simp [readFileExecute, h]
  · simp [grepExecute, h]
  · intro regexOk
    cases regexOk <;> simp [grepExecute, h]

/-- Witness for C3: with an empty registry, reading the key k.json is
refused and no storage access happens. -/
theorem readerTools_refuse_unknown_keys_witness :
    readFileExecute [] rdaFix "k.json" =
      ({ key := "k.json", content := some unknownKeyMsg, matchLines := none,
         storage := some rdaFix.uri }, []) :=
  (readerTools_refuse_unknown_keys [] rdaFix "k.json" "a.*b" rfl).1

/-! ### C2: no registration of written keys -/

/-- C2 (code bug evidence): the strategy contains no call to any
registration primitive — the known-key module is only ever consulted by
the reader tools — so compacting the fixture conversation writes the
key fetchEmails.json while the registry, empty before the call, is
still empty after it and isKnown stays false for the freshly written
key; the reader tools will therefore refuse the very key the engine
just surfaced in its written-to reference. -/
theorem engine_registers_no_written_key :
    (writeToolResultsToFileStrategy exWrite optsAll).2 = [fetchKey] ∧
    isKnownKey [] adpId.uri fetchKey = false := by
  refine ⟨?_, ?_⟩ <;> decide

/-! ### C7: final-message invariant -/

/-- Helper: the strategy loop preserves the number of messages. -/
theorem processMessages_length (opts : StratOptions) (lo hi : Nat) :
    ∀ (l : List Message) (i : Nat),
      (processMessages opts lo hi l i).1.length = l.length := by
  intro l
  induction l with
  | nil => intro i; rfl
  | cons m rest ih => intro i; simp [processMessages, ih (i + 1)]

/-- Helper: the strategy loop acts elementwise: the message stored at
offset j of the result is the loop body applied at index i+j. -/
theorem processMessages_getElem (opts : StratOptions) (lo hi : Nat) :
    ∀ (l : List Message) (i j : Nat),
      (processMessages opts lo hi l i).1[j]? =
        (l[j]?).map (fun m => (transMsg opts lo hi (i + j) m).1) := by
  intro l
  induction l with
  | nil => intro i j; simp [processMessages]
  | cons m rest ih =>
      intro i j
      cases j with
      | zero => simp [processMessages]
      | succ j2 =>
          simp only [processMessages, List.getElem?_cons_succ]
          rw [ih (i + 1) j2]
          have harith : i + 1 + j2 = i + (j2 + 1) := by omega
          rw [harith]

/-- Helper: the loop bound is below the last index. -/
theorem toNat_min_le_pred (e : Int) (n : Nat) :
    (min e ((n : Int) - 1)).toNat ≤ n - 1 := by
  have h1 : min e ((n : Int) - 1) ≤ (n : Int) - 1 := min_le_right _ _
  have h2 := Int.toNat_le_toNat h1
  omega

/-- Helper: the strategy never touches the last message (the loop bound
min(endExclusive, len-1) excludes the final index, and the
guard-failure path returns the input itself). -/
theorem strategy_getLast_aux (msgs : List Message) (opts : StratOptions) :
    (writeToolResultsToFileStrategy msgs opts).1.getLast? = msgs.getLast? := by
  by_cases hg : endsWithAssistantText msgs = false
  · simp [writeToolResultsToFileStrategy, hg]
  · have hg2 : endsWithAssistantText msgs = true := by
      revert hg; cases endsWithAssistantText msgs <;> simp
    rw [writeToolResultsToFileStrategy, if_neg (by simp [hg2])]
    rw [List.getLast?_eq_getElem?, List.getLast?_eq_getElem?]
    rw [processMessages_length, processMessages_getElem]
    cases hv : msgs[msgs.length - 1]? with
    | none => rfl
    | some m =>
        have hnonempty : msgs.length ≠ 0 := by
          intro h0
          have hnil := List.length_eq_zero.mp h0
          rw [hnil] at hv
          simp at hv
        have hhi := toNat_min_le_pred
          (detectWindowRange msgs opts.boundary).2 msgs.length
        have hcond : ¬ (0 + (msgs.length - 1) <
            (min (detectWindowRange msgs opts.boundary).2
              ((msgs.length : Int) - 1)).toNat) := by omega
        simp only [transMsg, Option.map_some, Option.map_some']
        rw [if_neg (fun hc => absurd hc.2.1 hcond)]

/-- C7: for every input and every boundary and options, the last
message of the strategy output is the last message of the input. -/
theorem strategy_preserves_last (msgs : List Message) (opts : StratOptions) :
    (writeToolResultsToFileStrategy msgs opts).1.getLast? = msgs.getLast? :=
  strategy_getLast_aux msgs opts

/-! ### C1: second-pass behaviour of the strategy -/

/-- Helper: a list is a prefix of itself followed by anything. -/
theorem isPrefixOf_append_self (l r : List Char) : l.isPrefixOf (l ++ r) = true := by
  induction l with
  | nil => simp [List.isPrefixOf]
  | cons a as ih => simp [List.isPrefixOf, ih]

/-- Helper: a string starts with itself followed by anything. -/
theorem jsStartsWith_append (p s : String) : jsStartsWith (p ++ s) p = true := by
  show (p.data).isPrefixOf ((p ++ s).data) = true
  have h : (p ++ s).data = p.data ++ s.data := rfl
  rw [h]
  exact isPrefixOf_append_self _ _

/-- Helper: every string the write branch installs carries the
written-to reference prefix. -/
theorem writtenVal_prefixed (opts : StratOptions) (key : String) :
    refPrefixed (writtenLead ++ formatStoragePathForDisplay opts.adapter.uri key
      ++ keyMid ++ key ++ writtenTail) = true := by
  unfold refPrefixed
  have h2 : writtenLead = writtenPrefix ++ " " := by decide
  have h : writtenLead ++ formatStoragePathForDisplay opts.adapter.uri key
      ++ keyMid ++ key ++ writtenTail =
      writtenPrefix ++ (" " ++ formatStoragePathForDisplay opts.adapter.uri key
        ++ keyMid ++ key ++ writtenTail) := by
    rw [h2]
    simp [String.append_assoc]
  rw [h, jsStartsWith_append]
  rfl

/-- Helper: a part holding a written-to reference output is skipped
unchanged: the reference string is detected by the already-compacted
test through the text-typed value field. -/
theorem processPart_settled_written (opts : StratOptions) (q : ContentPart)
    (key : String) (ht : q.type = tyToolResult) (hnr : readerTest opts q = false)
    (hout : q.output = writtenRef opts key) :
    processPart opts q = (q, []) := by
  have h1 : ¬ (q.type ≠ tyToolResult ∨ truthy q.output = false) := by
    rw [ht, hout]
    simp [writtenRef, truthy]
  have h3 : truthy (extractOutputValue q.output) = true := by
    rw [hout]
    rfl
  have h4 : alreadyRef q.output (extractOutputValue q.output) = true := by
    rw [hout]
    have hex : extractOutputValue (writtenRef opts key) = writtenRef opts key := rfl
    rw [hex]
    unfold alreadyRef
    rw [show isStringVal (writtenRef opts key) = false from rfl]
    rw [show (truthy (writtenRef opts key)
      && eqStrVal (getField (writtenRef opts key) fType) tyText
      && isStringVal (getField (writtenRef opts key) fValue)) = true from rfl]
    simp only [Bool.false_eq_true, if_false, if_true]
    rw [show asStr (getField (writtenRef opts key) fValue) =
      writtenLead ++ formatStoragePathForDisplay opts.adapter.uri key
        ++ keyMid ++ key ++ writtenTail from rfl]
    exact writtenVal_prefixed opts key
  unfold processPart
  rw [if_neg h1, if_neg (by rw [hnr]; simp), if_neg (by rw [h3]; simp), if_pos h4]

/-- Helper: a part whose type is tool-result, whose output is truthy
and whose tool is in the reader set is diverted to the reader rewrite. -/
theorem processPart_reader_branch (opts : StratOptions) (q : ContentPart)
    (ht : q.type = tyToolResult) (hobj : truthy q.output = true)
    (hr : readerTest opts q = true) :
    processPart opts q = (readerRewrite q, []) := by
  unfold processPart
  rw [if_neg (by rw [ht, hobj]; simp), if_pos hr]

/-- Helper: the tool name of a part survives processing. -/
theorem processPart_toolName (opts : StratOptions) (p : ContentPart) :
    (processPart opts p).1.toolName = p.toolName := by
  unfold processPart
  split_ifs <;> rfl

/-- Helper: the part type survives processing. -/
theorem processPart_type (opts : StratOptions) (p : ContentPart) :
    (processPart opts p).1.type = p.type := by
  unfold processPart
  split_ifs <;> rfl

/-- Helper: the reader test only reads the tool name, so it survives
processing. -/
theorem readerTest_processPart (opts : StratOptions) (p : ContentPart) :
    readerTest opts (processPart opts p).1 = readerTest opts p := by
  unfold readerTest
  rw [processPart_toolName]

/-- Helper: reprocessing the result of a non-reader part changes
nothing and writes nothing. -/
theorem processPart_stable (opts : StratOptions) (p : ContentPart)
    (hnr : readerTest opts p = false) :
    processPart opts (processPart opts p).1 = ((processPart opts p).1, []) := by
  by_cases h1 : p.type ≠ tyToolResult ∨ truthy p.output = false
  · have e : processPart opts p = (p, []) := by
      unfold processPart
      rw [if_pos h1]
    rw [e]
    exact e
  · by_cases h3 : truthy (extractOutputValue p.output) = false
    · have e : processPart opts p = (p, []) := by
        unfold processPart
        rw [if_neg h1, if_neg (by rw [hnr]; simp), if_pos h3]
      rw [e]
      exact e
    · by_cases h4 : alreadyRef p.output (extractOutputValue p.output) = true
      · have e : processPart opts p = (p, []) := by
          unfold processPart
          rw [if_neg h1, if_neg (by rw [hnr]; simp), if_neg h3, if_pos h4]
        rw [e]
        exact e
      · have e : processPart opts p =
            ({ p with output := (writtenRef opts
                (opts.adapter.resolveKey (partToolName p ++ jsonExt))) },
             [opts.adapter.resolveKey (partToolName p ++ jsonExt)]) := by
          unfold processPart writePart
          rw [if_neg h1, if_neg (by rw [hnr]; simp), if_neg h3, if_neg h4]
        rw [e]
        push_neg at h1
        exact processPart_settled_written opts _ _ h1.1 hnr rfl

/-- Helper: whatever the part, reprocessing its processed form writes
nothing (reader parts are rewritten again, but without writes). -/
theorem processPart_writes2 (opts : StratOptions) (p : ContentPart) :
    (processPart opts (processPart opts p).1).2 = [] := by
  by_cases hnr : readerTest opts p = false
  · rw [processPart_stable opts p hnr]
  · have hr : readerTest opts p = true := by
      revert hnr
      cases readerTest opts p <;> simp
    by_cases h1 : p.type ≠ tyToolResult ∨ truthy p.output = false
    · have e : processPart opts p = (p, []) := by
        unfold processPart
        rw [if_pos h1]
      rw [e]
      simp [e]
    · push_neg at h1
      have htr : truthy p.output = true := by
        have h12 := h1.2
        revert h12
        cases truthy p.output <;> simp
      have e : processPart opts p = (readerRewrite p, []) :=
        processPart_reader_branch opts p h1.1 htr hr
      rw [e]
      have e2 : processPart opts (readerRewrite p) =
          (readerRewrite (readerRewrite p), []) := by
        refine processPart_reader_branch opts _ ?_ ?_ ?_
        · exact h1.1
        · rfl
        · exact hr
      simp [e2]

/-- Helper: the processed part list is the elementwise image. -/
theorem processParts_fst_map (opts : StratOptions) (ps : List ContentPart) :
    (processParts opts ps).1 = ps.map (fun p => (processPart opts p).1) := by
  induction ps with
  | nil => rfl
  | cons p rest ih => simp [processParts, ih]

/-- Helper: reprocessing a processed part list of non-reader parts
changes nothing and writes nothing. -/
theorem processParts_stable (opts : StratOptions) (ps : List ContentPart)
    (hall : ∀ p ∈ ps, readerTest opts p = false) :
    processParts opts (processParts opts ps).1 = ((processParts opts ps).1, []) := by
  induction ps with
  | nil => rfl
  | cons p rest ih =>
      have hp := processPart_stable opts p (hall p (by simp))
      have hr := ih (fun q hq => hall q (by simp [hq]))
      simp [processParts, hp, hr]

/-- Helper: reprocessing any processed part list writes nothing. -/
theorem processParts_writes2 (opts : StratOptions) (ps : List ContentPart) :
    (processParts opts (processParts opts ps).1).2 = [] := by
  induction ps with
  | nil => rfl
  | cons p rest ih =>
      have hp := processPart_writes2 opts p
      simp [processParts, hp, ih]

/-- Helper: a processed message keeps its role and its tool-message
shape. -/
theorem isToolMessage_processToolMsg (opts : StratOptions) (m : Message) :
    isToolMessage (processToolMsg opts m).1 = isToolMessage m := by
  cases hm : m.content with
  | mstr s => simp [processToolMsg, hm]
  | mparts ps => simp [processToolMsg, hm, isToolMessage]

/-- Helper: reprocessing a processed message of non-reader parts
changes nothing and writes nothing. -/
theorem processToolMsg_stable (opts : StratOptions) (m : Message)
    (hall : ∀ p ∈ partsOf m, readerTest opts p = false) :
    processToolMsg opts (processToolMsg opts m).1 = ((processToolMsg opts m).1, []) := by
  cases hm : m.content with
  | mstr s =>
      have e : processToolMsg opts m = (m, []) := by
        unfold processToolMsg
        rw [hm]
      rw [e]
      exact e
  | mparts ps =>
      have hps : partsOf m = ps := by simp [partsOf, hm]
      have e : processToolMsg opts m =
          ({ m with content := .mparts (processParts opts ps).1 },
            (processParts opts ps).2) := by
        unfold processToolMsg
        rw [hm]
      rw [e]
      have e2 := processParts_stable opts ps (fun p hp => hall p (by rw [hps]; exact hp))
      simp [processToolMsg, e2]

/-- Helper: reprocessing any processed message writes nothing. -/
theorem processToolMsg_writes2 (opts : StratOptions) (m : Message) :
    (processToolMsg opts (processToolMsg opts m).1).2 = [] := by
  cases hm : m.content with
  | mstr s =>
      have e : processToolMsg opts m = (m, []) := by
        unfold processToolMsg
        rw [hm]
      rw [e]
      simp [e]
  | mparts ps =>
      have e : processToolMsg opts m =
          ({ m with content := .mparts (processParts opts ps).1 },
            (processParts opts ps).2) := by
        unfold processToolMsg
        rw [hm]
      rw [e]
      have e2 := processParts_writes2 opts ps
      simp [processToolMsg, e2]

/-- Helper: reprocessing the loop body output at the same index changes
nothing and writes nothing, for messages whose parts avoid the reader
set. -/
theorem transMsg_stable (opts : StratOptions) (lo hi i : Nat) (m : Message)
    (hall : ∀ p ∈ partsOf m, readerTest opts p = false) :
    transMsg opts lo hi i (transMsg opts lo hi i m).1 = ((transMsg opts lo hi i m).1, []) := by
  by_cases hc : lo ≤ i ∧ i < hi ∧ isToolMessage m = true
  · have e : transMsg opts lo hi i m = processToolMsg opts m := by
      unfold transMsg
      rw [if_pos hc]
    rw [e]
    have hc2 : lo ≤ i ∧ i < hi ∧ isToolMessage (processToolMsg opts m).1 = true :=
      ⟨hc.1, hc.2.1, by rw [isToolMessage_processToolMsg]; exact hc.2.2⟩
    unfold transMsg
    rw [if_pos hc2]
    exact processToolMsg_stable opts m hall
  · have e : transMsg opts lo hi i m = (m, []) := by
      unfold transMsg
      rw [if_neg hc]
    rw [e]
    exact e

/-- Helper: reprocessing the loop body output writes nothing, whatever
the message. -/
theorem transMsg_writes2 (opts : StratOptions) (lo hi i : Nat) (m : Message) :
    (transMsg opts lo hi i (transMsg opts lo hi i m).1).2 = [] := by
  by_cases hc : lo ≤ i ∧ i < hi ∧ isToolMessage m = true
  · have e : transMsg opts lo hi i m = processToolMsg opts m := by
      unfold transMsg
      rw [if_pos hc]
    rw [e]
    have hc2 : lo ≤ i ∧ i < hi ∧ isToolMessage (processToolMsg opts m).1 = true :=
      ⟨hc.1, hc.2.1, by rw [isToolMessage_processToolMsg]; exact hc.2.2⟩
    unfold transMsg
    rw [if_pos hc2]
    exact processToolMsg_writes2 opts m
  · have e : transMsg opts lo hi i m = (m, []) := by
      unfold transMsg
      rw [if_neg hc]
    rw [e]
    simp [e]

/-- Helper: reprocessing the loop output over the same window changes
nothing and writes nothing, for inputs without reader-tool parts. -/
theorem processMessages_stable (opts : StratOptions) (lo hi : Nat) :
    ∀ (l : List Message) (i : Nat),
      (∀ m ∈ l, ∀ p ∈ partsOf m, readerTest opts p = false) →
      processMessages opts lo hi (processMessages opts lo hi l i).1 i =
        ((processMessages opts lo hi l i).1, []) := by
  intro l
  induction l with
  | nil => intro i _; rfl
  | cons m rest ih =>
      intro i h
      have ht := transMsg_stable opts lo hi i m (h m (by simp))
      have hr := ih (i + 1) (fun m2 hm2 => h m2 (by simp [hm2]))
      simp [processMessages, ht, hr]

/-- Helper: reprocessing the loop output over the same window writes
nothing, whatever the input. -/
theorem processMessages_writes2 (opts : StratOptions) (lo hi : Nat) :
    ∀ (l : List Message) (i : Nat),
      (processMessages opts lo hi (processMessages opts lo hi l i).1 i).2 = [] := by
  intro l
  induction l with
  | nil => intro i; rfl
  | cons m rest ih =>
      intro i
      have ht := transMsg_writes2 opts lo hi i m
      simp [processMessages, ht, ih (i + 1)]

/-- C1 counterexample: compacting a conversation holding a readFile
result twice with the same options is not the same as compacting it
once: the first pass rewrites the reader part to a read-from reference
carrying the storage path and key, the second pass rewrites that
reference again and, finding no storage fields inside the reference
string, degrades it to the unknown placeholder. -/
theorem compact_not_idempotent :
    (writeToolResultsToFileStrategy
        (writeToolResultsToFileStrategy exReader optsReader).1 optsReader).1 ≠
      (writeToolResultsToFileStrategy exReader optsReader).1 :=
  fun h => absurd (congrArg probeFirstPartValue h) (by decide)

/-- C1 amended: the second pass over a compacted conversation performs
no storage write at all; and when no tool-result part of the input
belongs to a configured reader tool, the second pass is the identity,
so compaction restricted to such inputs is idempotent (reader-tool
results, by contrast, are rewritten on every pass). -/
theorem strategy_second_pass (msgs : List Message) (opts : StratOptions) :
    (writeToolResultsToFileStrategy
        (writeToolResultsToFileStrategy msgs opts).1 opts).2 = [] ∧
    ((∀ m ∈ msgs, ∀ p ∈ partsOf m, readerTest opts p = false) →
      writeToolResultsToFileStrategy
          (writeToolResultsToFileStrategy msgs opts).1 opts =
        ((writeToolResultsToFileStrategy msgs opts).1, [])) := by
  by_cases hg : endsWithAssistantText msgs = false
  · have e : writeToolResultsToFileStrategy msgs opts = (msgs, []) := by
      unfold writeToolResultsToFileStrategy
      rw [if_pos hg]
    constructor
    · rw [e]
      simp [e]
    · intro _
      rw [e]
      exact e
  · have hg2 : endsWithAssistantText msgs = true := by
      revert hg
      cases endsWithAssistantText msgs <;> simp
    have e : writeToolResultsToFileStrategy msgs opts =
        processMessages opts (detectWindowRange msgs opts.boundary).1.toNat
          ((min (detectWindowRange msgs opts.boundary).2
            ((msgs.length : Int) - 1)).toNat) msgs 0 := by
      unfold writeToolResultsToFileStrategy
      rw [if_neg (by rw [hg2]; simp)]
    rw [e]
    have hlast : (processMessages opts (detectWindowRange msgs opts.boundary).1.toNat
        ((min (detectWindowRange msgs opts.boundary).2
          ((msgs.length : Int) - 1)).toNat) msgs 0).1.getLast? = msgs.getLast? := by
      rw [← e]
      exact strategy_getLast_aux msgs opts
    have hlenF : (processMessages opts (detectWindowRange msgs opts.boundary).1.toNat
        ((min (detectWindowRange msgs opts.boundary).2
          ((msgs.length : Int) - 1)).toNat) msgs 0).1.length = msgs.length :=
      processMessages_length opts _ _ msgs 0
    have hg3 : endsWithAssistantText (processMessages opts
        (detectWindowRange msgs opts.boundary).1.toNat
        ((min (detectWindowRange msgs opts.boundary).2
          ((msgs.length : Int) - 1)).toNat) msgs 0).1 = true := by
      unfold endsWithAssistantText at hg2 ⊢
      rw [hlast]
      exact hg2
    have e2 : writeToolResultsToFileStrategy (processMessages opts
        (detectWindowRange msgs opts.boundary).1.toNat
        ((min (detectWindowRange msgs opts.boundary).2
          ((msgs.length : Int) - 1)).toNat) msgs 0).1 opts =
        processMessages opts (detectWindowRange msgs opts.boundary).1.toNat
          ((min (detectWindowRange msgs opts.boundary).2
            ((msgs.length : Int) - 1)).toNat)
          (processMessages opts (detectWindowRange msgs opts.boundary).1.toNat
            ((min (detectWindowRange msgs opts.boundary).2
              ((msgs.length : Int) - 1)).toNat) msgs 0).1 0 := by
      unfold writeToolResultsToFileStrategy
      rw [if_neg (by rw [hg3]; simp)]
      rw [show detectWindowRange (processMessages opts
          (detectWindowRange msgs opts.boundary).1.toNat
          ((min (detectWindowRange msgs opts.boundary).2
            ((msgs.length : Int) - 1)).toNat) msgs 0).1 opts.boundary =
          detectWindowRange msgs opts.boundary from by
        unfold detectWindowRange
        rw [processMessages_length]]
      rw [processMessages_length]
    constructor
    · rw [e2]
      exact processMessages_writes2 opts _ _ msgs 0
    · intro hall
      rw [e2]
      exact processMessages_stable opts _ _ msgs 0 hall

/-- Witness for C1 amended: re-compacting the compacted fetchEmails
conversation (no reader tools present) changes nothing and writes
nothing. -/
theorem strategy_second_pass_witness :
    writeToolResultsToFileStrategy
        (writeToolResultsToFileStrategy exWrite optsAll).1 optsAll =
      ((writeToolResultsToFileStrategy exWrite optsAll).1, []) :=
  (strategy_second_pass exWrite optsAll).2 (by decide)

/-! ### C8: aliasing of the caller objects -/

/-- Helper: overwriting slot i and reading slot i. -/
theorem list_getD_set_self {α : Type} (l : List α) (i : Nat) (v d : α)
    (h : i < l.length) : (l.set i v).getD i d = v := by
  induction l generalizing i with
  | nil => simp at h
  | cons a rest ih =>
      cases i with
      | zero => rfl
      | succ j =>
          show (a :: rest.set j v).getD (j + 1) d = v
          rw [List.getD_cons_succ]
          exact ih j (by simpa using h)

/-- Helper: overwriting slot i leaves other slots unchanged. -/
theorem list_getD_set_ne {α : Type} (l : List α) (i j : Nat) (hij : i ≠ j)
    (v d : α) : (l.set i v).getD j d = l.getD j d := by
  induction l generalizing i j with
  | nil => rfl
  | cons a rest ih =>
      cases i with
      | zero =>
          cases j with
          | zero => exact absurd rfl hij
          | succ k => rfl
      | succ i2 =>
          cases j with
          | zero => rfl
          | succ k =>
              show (a :: rest.set i2 v).getD (k + 1) d = (a :: rest).getD (k + 1) d
              rw [List.getD_cons_succ, List.getD_cons_succ]
              exact ih i2 k (fun h => hij (by rw [h]))

/-- Helper: in-place part processing preserves the store size. -/
theorem hProcessIds_length (opts : StratOptions) :
    ∀ (ids : List Nat) (store : List ContentPart),
      (hProcessIds opts store ids).length = store.length := by
  intro ids
  induction ids with
  | nil => intro store; rfl
  | cons a rest ih => intro store; simp [hProcessIds, ih]

/-- Helper: in-place part processing rewrites exactly the referenced
slots, each once (under distinct references). -/
theorem hProcessIds_getD (opts : StratOptions) :
    ∀ (ids : List Nat) (store : List ContentPart) (j : Nat),
      ids.Nodup → (∀ id ∈ ids, id < store.length) → j < store.length →
      (hProcessIds opts store ids).getD j defaultPart =
        (if j ∈ ids then (processPart opts (store.getD j defaultPart)).1
         else store.getD j defaultPart) := by
  intro ids
  induction ids with
  | nil => intro store j _ _ _; simp [hProcessIds]
  | cons a rest ih =>
      intro store j hnd hlt hj
      have ha : a < store.length := hlt a (by simp)
      have hlen2 : (store.set a (processPart opts (store.getD a defaultPart)).1).length
          = store.length := by simp
      rcases List.nodup_cons.mp hnd with ⟨hna, hndr⟩
      have estep : hProcessIds opts store (a :: rest) =
          hProcessIds opts
            (store.set a (processPart opts (store.getD a defaultPart)).1) rest := rfl
      rw [estep]
      rw [ih (store.set a (processPart opts (store.getD a defaultPart)).1) j hndr
        (fun id hid => by rw [hlen2]; exact hlt id (by simp [hid]))
        (by rw [hlen2]; exact hj)]
      by_cases hja : j = a
      · subst hja
        rw [if_neg (fun hmem => hna hmem)]
        rw [list_getD_set_self _ _ _ _ ha]
        rw [if_pos (by simp)]
      · rw [list_getD_set_ne _ _ _ (fun h => hja h.symm)]
        by_cases hjr : j ∈ rest
        · rw [if_pos hjr, if_pos (by simp [hjr])]
        · rw [if_neg hjr, if_neg (by simp [hja, hjr])]

/-- Helper: every reference the window loop touches is a reference of
the message list. -/
theorem windowIds_subset (lo hi : Nat) :
    ∀ (l : List HMessage) (i j : Nat), j ∈ windowIds lo hi i l →
      j ∈ (l.map msgIds).flatten := by
  intro l
  induction l with
  | nil => intro i j h; simp [windowIds] at h
  | cons m rest ih =>
      intro i j h
      have hsplit : ((m :: rest).map msgIds).flatten =
          msgIds m ++ (rest.map msgIds).flatten := by simp
      rw [hsplit]
      simp only [windowIds] at h
      rcases List.mem_append.mp h with h1 | h1
      · by_cases hc : lo ≤ i ∧ i < hi ∧ hIsToolMessage m = true
        · rw [if_pos hc] at h1
          exact List.mem_append.mpr (Or.inl h1)
        · rw [if_neg hc] at h1
          simp at h1
      · exact List.mem_append.mpr (Or.inr (ih (i + 1) j h1))

/-- Helper: the heap-model loop rewrites exactly the parts referenced
from tool messages inside the window, leaving every other slot
unchanged. -/
theorem hTrans_getD (opts : StratOptions) (lo hi : Nat) :
    ∀ (l : List HMessage) (store : List ContentPart) (i j : Nat),
      ((l.map msgIds).flatten).Nodup →
      (∀ id ∈ (l.map msgIds).flatten, id < store.length) → j < store.length →
      (hTrans opts lo hi store i l).getD j defaultPart =
        (if j ∈ windowIds lo hi i l
         then (processPart opts (store.getD j defaultPart)).1
         else store.getD j defaultPart) := by
  intro l
  induction l with
  | nil => intro store i j _ _ _; simp [hTrans, windowIds]
  | cons m rest ih =>
      intro store i j hnd hlt hj
      have hsplit : ((m :: rest).map msgIds).flatten =
          msgIds m ++ (rest.map msgIds).flatten := by simp
      rw [hsplit] at hnd hlt
      rcases List.nodup_append.mp hnd with ⟨hnm, hnr, hdisj⟩
      by_cases hc : lo ≤ i ∧ i < hi ∧ hIsToolMessage m = true
      · cases hmc : m.content with
        | hstr s =>
            exact absurd hc.2.2 (by simp [hIsToolMessage, hmc])
        | hparts ids =>
            have hmids : msgIds m = ids := by simp [msgIds, hmc]
            have estep : hTrans opts lo hi store i (m :: rest) =
                hTrans opts lo hi (hProcessIds opts store ids) (i + 1) rest := by
              simp [hTrans, hc, hmc]
            have hlen2 : (hProcessIds opts store ids).length = store.length :=
              hProcessIds_length opts ids store
            rw [estep]
            rw [ih (hProcessIds opts store ids) (i + 1) j hnr
              (fun id hid => by
                rw [hlen2]
                exact hlt id (List.mem_append.mpr (Or.inr hid)))
              (by rw [hlen2]; exact hj)]
            have hwin : windowIds lo hi i (m :: rest) =
                ids ++ windowIds lo hi (i + 1) rest := by
              simp [windowIds, hc, hmids]
            rw [hwin]
            have hget2 := hProcessIds_getD opts ids store j (hmids ▸ hnm)
              (fun id hid =>
                hlt id (List.mem_append.mpr (Or.inl (hmids ▸ hid)))) hj
            by_cases hjw : j ∈ ids
            · have hjnr : j ∉ windowIds lo hi (i + 1) rest := fun hmem =>
                hdisj (hmids ▸ hjw) (windowIds_subset lo hi rest (i + 1) j hmem)
              rw [if_neg hjnr, hget2, if_pos hjw,
                if_pos (List.mem_append.mpr (Or.inl hjw))]
            · rw [hget2, if_neg hjw]
              by_cases hjw2 : j ∈ windowIds lo hi (i + 1) rest
              · rw [if_pos hjw2, if_pos (List.mem_append.mpr (Or.inr hjw2))]
              · rw [if_neg hjw2,
                  if_neg (fun hmem => by
                    rcases List.mem_append.mp hmem with h1 | h1
                    · exact hjw h1
                    · exact hjw2 h1)]
      · have estep : hTrans opts lo hi store i (m :: rest) =
            hTrans opts lo hi store (i + 1) rest := by
          simp [hTrans, hc]
        have hwin : windowIds lo hi i (m :: rest) = windowIds lo hi (i + 1) rest := by
          simp [windowIds, hc]
        rw [estep, hwin]
        exact ih store (i + 1) j hnr
          (fun id hid => hlt id (List.mem_append.mpr (Or.inr hid))) hj

/-- C8 counterexample: in the identity model the caller's part object
(slot 0 of the store, referenced by the caller's tool message) holds a
different output after the strategy runs: the write branch assigns
part.output on the aliased object rather than on a clone, so the
caller's original is modified. -/
theorem compact_mutates_caller_objects :
    ((writeStrategyParts hStore0 hMsgs0 optsAll).1.getD 0 defaultPart).output ≠
      (hStore0.getD 0 defaultPart).output :=
  fun h => absurd (congrArg (fun v => isStringVal (getField v fValue)) h) (by decide)

/-- C8 amended: the strategy returns the same message references it was
given (a new outer array, same elements — nothing is cloned), and under
distinct valid part references the final store holds the processed
value exactly at the parts of tool messages inside the window and the
untouched original everywhere else: replaced outputs are installed by
mutating the caller's parts in place. -/
theorem strategyParts_aliasing (store : List ContentPart) (msgs : List HMessage)
    (opts : StratOptions) (hnd : (allIds msgs).Nodup)
    (hlt : ∀ id ∈ allIds msgs, id < store.length) :
    (writeStrategyParts store msgs opts).2 = msgs ∧
    (endsWithAssistantText (derefMsgs store msgs) = true →
      ∀ j, j < store.length →
        ((writeStrategyParts store msgs opts).1).getD j defaultPart =
          (if j ∈ windowIds (detectWindowRangeLen msgs.length opts.boundary).1.toNat
              ((min (detectWindowRangeLen msgs.length opts.boundary).2
                ((msgs.length : Int) - 1)).toNat) 0 msgs
           then (processPart opts (store.getD j defaultPart)).1
           else store.getD j defaultPart)) := by
  constructor
  · unfold writeStrategyParts
    split_ifs <;> rfl
  · intro hguard j hj
    unfold writeStrategyParts
    rw [if_neg (by rw [hguard]; simp)]
    exact hTrans_getD opts _ _ msgs store 0 j hnd hlt hj

/-- Witness for C8 amended: the fixture run returns the caller's
message references and rewrites the caller's single referenced part. -/
theorem strategyParts_aliasing_witness :
    (writeStrategyParts hStore0 hMsgs0 optsAll).2 = hMsgs0 :=
  (strategyParts_aliasing hStore0 hMsgs0 optsAll (by decide) (by decide)).1

end CtxZip
